import Mathlib

/-
Verification of the key-value store with value-count index and undo/redo
history, embedded from src/store/service.py (class Service and its command
history), together with the reset handler of src/store/router.py.

The Google Cloud datastore backend is modelled as:
  * the Entry table: an association list from names to integer values
    (one row per name; `put` replaces the row for its key);
  * the ValueCount table: a total function from values to integer counts
    (an absent row reads as 0, exactly as `get_value_count` and
    `_update_value_count` treat it).

The doubly linked history (class Node, fields prev/next, cursor
`self.node`) is modelled as a zipper: `back` lists the commands of the
nodes from the cursor down to (but excluding) the sentinel root node, and
`fwd` lists the commands reachable forward from the cursor (the redo
chain, nearest first).  `_append_node` overwrites `self.node.next`, which
discards the old forward chain, and the fresh node has `next = None`:
hence appending sets `fwd := []`.
-/

/-- Commands recorded in history, mirroring the dataclasses `NoCommand`,
`SetCommand(name, value)` and `UnsetCommand(name, value, noop)` of
src/store/service.py.  Note that `unset` fills the `noop` field with the
second component of `_unset_entry`'s result, which is `True` exactly when
an entry was actually deleted. -/
inductive Command where
  | NoCommand : Command
  | SetCommand : String → Int → Command
  | UnsetCommand : String → Int → Bool → Command
deriving DecidableEq

/-- The datastore contents: the Entry table and the ValueCount table. -/
structure Store where
  entries : List (String × Int)
  counts : Int → Int

/-- Point lookup in the Entry table (`self.ds.get(key)` for an Entry key):
the value of the first row whose key matches, or `none`. -/
def getEntry : List (String × Int) → String → Option Int
  | [], _ => none
  | (k, v) :: es, n => if k = n then some v else getEntry es n

/-- Row deletion in the Entry table (`self.ds.delete(key)`). -/
def delEntry : List (String × Int) → String → List (String × Int)
  | [], _ => []
  | (k, v) :: es, n => if k = n then delEntry es n else (k, v) :: delEntry es n

/-- Row write in the Entry table (`self.ds.put(entity)`): replaces the row
keyed by `n`. -/
def putEntry (es : List (String × Int)) (n : String) (v : Int) :
    List (String × Int) :=
  (n, v) :: delEntry es n

/-- Embeds `Service._update_value_count`: read the ValueCount row (0 when
absent), add `diff`, write it back.  No negativity check is performed. -/
def updateValueCount (c : Int → Int) (value diff : Int) : Int → Int :=
  fun w => if w = value then c value + diff else c w

/-- Embeds `Service._set_entry`: if the entry already holds `value`,
return without writing; otherwise decrement the count of the old value
(when present), write the entry, and increment the count of `value`. -/
def setEntry (st : Store) (name : String) (value : Int) : Store :=
  match getEntry st.entries name with
  | some old =>
      if old = value then st
      else
        { entries := putEntry st.entries name value
          counts := updateValueCount (updateValueCount st.counts old (-1)) value 1 }
  | none =>
      { entries := putEntry st.entries name value
        counts := updateValueCount st.counts value 1 }

/-- Embeds `Service._unset_entry`: when the entry exists, decrement the
count of its value, delete the row, and return `(value, true)`; otherwise
return `(0, false)` without writing. -/
def unsetEntry (st : Store) (name : String) : Store × Int × Bool :=
  match getEntry st.entries name with
  | some v =>
      ({ entries := delEntry st.entries name
         counts := updateValueCount st.counts v (-1) }, v, true)
  | none => (st, 0, false)

/-- The complete service state: datastore contents plus the history
zipper (see the header comment for the encoding of the node chain). -/
structure Service where
  store : Store
  back : List Command
  fwd : List Command

/-- Embeds `Service.__init__`: empty backend, cursor on the sentinel
`Node(NoCommand())` root. -/
def Service.init : Service := ⟨⟨[], fun _ => 0⟩, [], []⟩

/-- Embeds `Service._append_node`: link the new node after the cursor
(overwriting `self.node.next`, which discards the previous redo chain;
the fresh node has no successor) and move the cursor onto it. -/
def Service.appendNode (s : Service) (c : Command) : Service :=
  { s with back := c :: s.back, fwd := [] }

/-- Embeds `Service.set`: `_set_entry` then append a `SetCommand` node. -/
def Service.set (s : Service) (name : String) (value : Int) : Service :=
  Service.appendNode { s with store := setEntry s.store name value }
    (Command.SetCommand name value)

/-- Embeds `Service.unset`: `_unset_entry` then append an `UnsetCommand`
node carrying the returned `(value, flag)` pair. -/
def Service.unset (s : Service) (name : String) : Service :=
  let r := unsetEntry s.store name
  Service.appendNode { s with store := r.1 }
    (Command.UnsetCommand name r.2.1 r.2.2)

/-- Embeds `Service.get_value_count`: read the ValueCount row, 0 when
absent. -/
def Service.getValueCount (s : Service) (value : Int) : Int :=
  s.store.counts value

/-- Embeds `Service.get_entry` (the optional value inside the returned
`GetResponse`). -/
def Service.getEntryOpt (s : Service) (name : String) : Option Int :=
  getEntry s.store.entries name

/-- Embeds `Service.undo`.  The cursor's command is `back.head?` (the
sentinel root when `back = []`).  A `SetCommand` is undone by
`_unset_entry`; an `UnsetCommand` is undone by `_set_entry name value`
only under the guard `if not noop`, otherwise the match falls through to
`return "None"` without moving the cursor. -/
def Service.undo (s : Service) : Service × String :=
  match s.back with
  | [] => (s, "NO COMMANDS")
  | c :: rest =>
    match c with
    | Command.NoCommand => (s, "NO COMMANDS")
    | Command.SetCommand name _ =>
        let r := unsetEntry s.store name
        ({ store := r.1, back := rest, fwd := c :: s.fwd }, name ++ " = None")
    | Command.UnsetCommand name value noop =>
        if noop then (s, "None")
        else
          ({ store := setEntry s.store name value, back := rest, fwd := c :: s.fwd },
            name ++ " = " ++ toString value)

/-- Embeds `Service.redo`: nothing to do when the cursor has no next
node; otherwise replay the next node's command (a `SetCommand` via
`_set_entry`, an `UnsetCommand` via `_unset_entry`, whose result is
discarded) and advance the cursor. -/
def Service.redo (s : Service) : Service × String :=
  match s.fwd with
  | [] => (s, "NO COMMANDS")
  | c :: rest =>
    match c with
    | Command.NoCommand => (s, "None")
    | Command.SetCommand name value =>
        ({ store := setEntry s.store name value, back := c :: s.back, fwd := rest },
          name ++ " = " ++ toString value)
    | Command.UnsetCommand name _ _ =>
        let r := unsetEntry s.store name
        ({ store := r.1, back := c :: s.back, fwd := rest }, name ++ " = None")

/-- Embeds `Service.end` (`end` is a Lean keyword, hence the name): a
keys-only query over the whole backend followed by `delete_multi` removes
every Entry and ValueCount row; the history cursor is untouched. -/
def Service.endAll (s : Service) : Service :=
  { s with store := ⟨[], fun _ => 0⟩ }

/-- Embeds the `/end` handler of src/store/router.py: `service.end()`
clears the backend, then `service = Service()` replaces the service with
a fresh one whose history is the sentinel root (the backend is the same
external datastore, now empty). -/
def routerEnd (s : Service) : Service :=
  { Service.endAll s with back := [], fwd := [] }

/-- One observable mutation request, as routed to the service. -/
inductive Op where
  | set : String → Int → Op
  | unset : String → Op

/-- Apply one request to the service. -/
def applyOp (s : Service) : Op → Service
  | Op.set n v => Service.set s n v
  | Op.unset n => Service.unset s n

/-- Run a sequence of set/unset requests from the freshly initialised
service (empty store). -/
def runOps (ops : List Op) : Service :=
  ops.foldl applyOp Service.init

/-- Number of Entry rows currently holding value `v` (with unique keys,
the number of names whose current value is `v`). -/
def countVal : List (String × Int) → Int → Nat
  | [], _ => 0
  | (_, v) :: es, w => (if v = w then 1 else 0) + countVal es w

/-- The Entry table has at most one row per name. -/
def NodupKeys : List (String × Int) → Prop
  | [] => True
  | (k, _) :: es => getEntry es k = none ∧ NodupKeys es

/-- The consistency invariant between the Entry table and the ValueCount
table: keys are unique and every count equals the number of entries
holding that value. -/
def StoreInv (st : Store) : Prop :=
  NodupKeys st.entries ∧ ∀ v, st.counts v = (countVal st.entries v : Int)

/-- State reached by the spec's example trace prefix
`set("a",10); set("a",20); unset("a")`. -/
def c1State : Service :=
  Service.unset (Service.set (Service.set Service.init "a" 10) "a" 20) "a"

/-- State reached by `set("a",1); unset("a")`: the cursor sits on a
non-sentinel node recording the unset. -/
def c3State : Service :=
  Service.unset (Service.set Service.init "a" 1) "a"

/-- State reached by `unset("a")` on the fresh service: an unset of an
absent name. -/
def c4State : Service :=
  Service.unset Service.init "a"

/-- State reached by `unset("a"); unset("a"); undo()` on the fresh
service: the cursor sits on the first no-op unset node while `"a"`
already holds 0. -/
def c5State : Service :=
  (Service.undo (Service.unset (Service.unset Service.init "a") "a")).1

/-- The state after one more undo followed by a redo from `c5State`. -/
def c5After : Service :=
  (Service.redo (Service.undo c5State).1).1

theorem getEntry_delEntry_self (es : List (String × Int)) (n : String) :
    getEntry (delEntry es n) n = none := by
  induction es with
  | nil => rfl
  | cons p es ih =>
    obtain ⟨k, v⟩ := p
    by_cases h : k = n
    · simp [delEntry, h, ih]
    · simp [delEntry, getEntry, h, ih]

theorem getEntry_delEntry_ne (es : List (String × Int)) {n m : String}
    (h : n ≠ m) : getEntry (delEntry es n) m = getEntry es m := by
  induction es with
  | nil => rfl
  | cons p es ih =>
    obtain ⟨k, v⟩ := p
    by_cases hk : k = n
    · subst hk
      simp [delEntry, getEntry, h, ih]
    · by_cases hm : k = m <;> simp [delEntry, getEntry, hk, hm, ih, Ne.symm h]

theorem delEntry_of_getEntry_none (es : List (String × Int)) (n : String)
    (h : getEntry es n = none) : delEntry es n = es := by
  induction es with
  | nil => rfl
  | cons p es ih =>
    obtain ⟨k, v⟩ := p
    by_cases hk : k = n
    · simp [getEntry, hk] at h
    · simp [getEntry, hk] at h
      simp [delEntry, hk, ih h]

theorem getEntry_delEntry_none (es : List (String × Int)) (n m : String)
    (h : getEntry es m = none) : getEntry (delEntry es n) m = none := by
  by_cases hnm : n = m
  · subst hnm
    exact getEntry_delEntry_self es n
  · rw [getEntry_delEntry_ne es hnm]
    exact h

theorem nodupKeys_delEntry (es : List (String × Int)) (n : String)
    (h : NodupKeys es) : NodupKeys (delEntry es n) := by
  induction es with
  | nil => trivial
  | cons p es ih =>
    obtain ⟨k, v⟩ := p
    obtain ⟨h1, h2⟩ := h
    by_cases hk : k = n
    · simpa [delEntry, hk] using ih h2
    · have : NodupKeys ((k, v) :: delEntry es n) :=
        ⟨getEntry_delEntry_none es n k h1, ih h2⟩
      simpa [delEntry, hk] using this

theorem countVal_delEntry_some :
    ∀ (es : List (String × Int)) (n : String) (v : Int),
      NodupKeys es → getEntry es n = some v →
      ∀ w : Int,
        countVal es w = countVal (delEntry es n) w + (if v = w then 1 else 0) := by
  intro es
  induction es with
  | nil =>
    intro n v _ hg w
    simp [getEntry] at hg
  | cons p es ih =>
    intro n v hnd hg w
    obtain ⟨k, u⟩ := p
    obtain ⟨h1, h2⟩ := hnd
    by_cases hk : k = n
    · subst hk
      simp [getEntry] at hg
      subst hg
      simp [delEntry, delEntry_of_getEntry_none es k h1, countVal]
      omega
    · have hg2 : getEntry es n = some v := by simpa [getEntry, hk] using hg
      have hrec := ih n v h2 hg2 w
      simp [delEntry, hk, countVal]
      omega

theorem storeInv_setEntry (st : Store) (name : String) (value : Int)
    (h : StoreInv st) : StoreInv (setEntry st name value) := by
  obtain ⟨hnd, hcnt⟩ := h
  unfold setEntry
  cases hg : getEntry st.entries name with
  | none =>
    have hdel : delEntry st.entries name = st.entries :=
      delEntry_of_getEntry_none _ _ hg
    refine ⟨⟨?_, ?_⟩, ?_⟩
    · simpa [putEntry, hdel] using hg
    · simpa [putEntry, hdel] using hnd
    · intro w
      have hw := hcnt w
      show updateValueCount st.counts value 1 w
          = (countVal (putEntry st.entries name value) w : Int)
      simp only [putEntry, hdel, countVal, updateValueCount]
      by_cases hwv : w = value
      · subst hwv
        simp
        omega
      · simp [hwv, Ne.symm hwv]
        omega
  | some old =>
    by_cases hov : old = value
    · simpa [hov] using ⟨hnd, hcnt⟩
    · simp only [hov, if_false]
      refine ⟨⟨?_, ?_⟩, ?_⟩
      · simpa [putEntry] using getEntry_delEntry_self st.entries name
      · simpa [putEntry] using nodupKeys_delEntry st.entries name hnd
      · intro w
        have hdel := countVal_delEntry_some st.entries name old hnd hg w
        have hw := hcnt w
        have hvo : ¬ value = old := fun h => hov h.symm
        show updateValueCount (updateValueCount st.counts old (-1)) value 1 w
            = (countVal (putEntry st.entries name value) w : Int)
        simp only [putEntry, countVal, updateValueCount]
        by_cases hwv : w = value
        · subst hwv
          simp [hvo, hov] at hdel ⊢
          omega
        · by_cases hwo : w = old
          · subst hwo
            simp [hwv, Ne.symm hwv] at hdel ⊢
            omega
          · simp [hwv, hwo, Ne.symm hwv, Ne.symm hwo] at hdel ⊢
            omega

theorem storeInv_unsetEntry (st : Store) (name : String)
    (h : StoreInv st) : StoreInv (unsetEntry st name).1 := by
  obtain ⟨hnd, hcnt⟩ := h
  unfold unsetEntry
  cases hg : getEntry st.entries name with
  | none => exact ⟨hnd, hcnt⟩
  | some v =>
    refine ⟨nodupKeys_delEntry st.entries name hnd, ?_⟩
    intro w
    have hdel := countVal_delEntry_some st.entries name v hnd hg w
    have hw := hcnt w
    show updateValueCount st.counts v (-1) w
        = (countVal (delEntry st.entries name) w : Int)
    simp only [updateValueCount]
    by_cases hwv : w = v
    · subst hwv
      simp at hdel ⊢
      omega
    · simp [hwv, Ne.symm hwv] at hdel ⊢
      omega

theorem storeInv_init : StoreInv ⟨[], fun _ => 0⟩ :=
  ⟨trivial, fun v => by simp [countVal]⟩

theorem storeInv_foldl (ops : List Op) :
    ∀ s : Service, StoreInv s.store → StoreInv (ops.foldl applyOp s).store := by
  induction ops with
  | nil => intro s h; exact h
  | cons op ops ih =>
    intro s h
    cases op with
    | set n v =>
      exact ih (applyOp s (Op.set n v)) (storeInv_setEntry s.store n v h)
    | unset n =>
      exact ih (applyOp s (Op.unset n)) (storeInv_unsetEntry s.store n h)

theorem getEntry_setEntry_self (st : Store) (name : String) (value : Int) :
    getEntry (setEntry st name value).entries name = some value := by
  unfold setEntry
  cases hg : getEntry st.entries name with
  | none => simp [putEntry, getEntry]
  | some old =>
    by_cases h : old = value
    · subst h
      simp [hg]
    · simp [h, putEntry, getEntry]

theorem set_undo_redo_tables (st : Store) (name : String) (value : Int) :
    (∀ n, getEntry (setEntry (unsetEntry (setEntry st name value) name).1 name value).entries n
        = getEntry (setEntry st name value).entries n) ∧
    (∀ w, (setEntry (unsetEntry (setEntry st name value) name).1 name value).counts w
        = (setEntry st name value).counts w) := by
  have hA := getEntry_setEntry_self st name value
  set st1 := setEntry st name value with hst1
  have hun : unsetEntry st1 name
      = (⟨delEntry st1.entries name, updateValueCount st1.counts value (-1)⟩, value, true) := by
    unfold unsetEntry
    rw [hA]
  rw [hun]
  have hnone : getEntry (delEntry st1.entries name) name = none :=
    getEntry_delEntry_self _ _
  have hset : setEntry ⟨delEntry st1.entries name, updateValueCount st1.counts value (-1)⟩
        name value
      = ⟨putEntry (delEntry st1.entries name) name value,
         updateValueCount (updateValueCount st1.counts value (-1)) value 1⟩ := by
    unfold setEntry
    rw [show getEntry (Store.mk (delEntry st1.entries name)
          (updateValueCount st1.counts value (-1))).entries name = none from hnone]
  rw [hset]
  constructor
  · intro n
    by_cases hn : name = n
    · subst hn
      simp [putEntry, getEntry, hA]
    · simp only [putEntry]
      rw [show delEntry (delEntry st1.entries name) name = delEntry st1.entries name from
        delEntry_of_getEntry_none _ _ hnone]
      simp [getEntry, hn]
      exact getEntry_delEntry_ne _ hn
  · intro w
    by_cases hw : w = value
    · subst hw
      simp [updateValueCount]
    · simp [updateValueCount, hw]

/-- Claim C1, evaluated on the code at the spec's example trace
`set("a",10); set("a",20); unset("a"); undo(); undo()`: the cursor sits on
`UnsetCommand("a", 20, noop := true)` (the flag records that an entry was
deleted), so each `undo()` returns the string "None" and leaves the
service (store and cursor) unchanged.  Hence after both undos `get("a")`
is absent and `count(10) = 0`, while the claim states the second undo
yields `get("a") = 10` and `count(10) = 1`. -/
theorem c1_trace_divergence :
    Service.undo c1State = (c1State, "None") ∧
    Service.getEntryOpt c1State "a" = none ∧
    Service.getValueCount c1State 10 = 0 ∧
    c1State.back = [Command.UnsetCommand "a" 20 true, Command.SetCommand "a" 20,
      Command.SetCommand "a" 10] :=
  ⟨rfl, by decide, by decide, by decide⟩

/-- Claim C2: after any sequence of set/unset requests starting from the
fresh service, `get_value_count v` equals the number of Entry rows (one
per name) whose value is `v`, and is in particular non-negative. -/
theorem c2_count_equals_names (ops : List Op) (v : Int) :
    Service.getValueCount (runOps ops) v
        = (countVal (runOps ops).store.entries v : Int) ∧
    0 ≤ Service.getValueCount (runOps ops) v := by
  have h : StoreInv (runOps ops).store :=
    storeInv_foldl ops Service.init storeInv_init
  have h2 : Service.getValueCount (runOps ops) v
      = (countVal (runOps ops).store.entries v : Int) := h.2 v
  refine ⟨h2, ?_⟩
  rw [h2]
  exact Int.natCast_nonneg _

/-- Claim C3, evaluated on the code: after `set("a",1); unset("a")` the
cursor is on a non-sentinel node (the recorded unset), yet `undo()`
returns the string "None", applies no inverse mutation, and does not move
the cursor back — contrary to the claim that any undo at a non-root node
steps the cursor back and returns an applied-transition result. -/
theorem c3_undo_nonroot_stuck :
    c3State.back = [Command.UnsetCommand "a" 1 true, Command.SetCommand "a" 1] ∧
    Service.undo c3State = (c3State, "None") :=
  ⟨by decide, rfl⟩

/-- Claim C4, refuted at a concrete input: after `unset("a")` on the
fresh service (where `"a"` has no entry) the recorded node is
`UnsetCommand("a", 0, noop := false)`, and `undo()` does NOT return
"None": it writes value 0 to `"a"`, moves the cursor back to the root,
and returns "a = 0". -/
theorem c4_counterexample :
    c4State.back = [Command.UnsetCommand "a" 0 false] ∧
    (Service.undo c4State).2 = "a = 0" ∧
    (Service.undo c4State).1.back = [] ∧
    Service.getEntryOpt (Service.undo c4State).1 "a" = some 0 :=
  ⟨by decide, by decide, by decide, by decide⟩

/-- Claim C4 as amended: the roles are swapped.  `unset(name)` on a name
that HAS a current entry records `UnsetCommand(name, old, true)`, and
`undo()` on such a node returns the string "None" and changes nothing at
all (store and cursor), so every subsequent `undo()` also returns "None"
and no mutation issued before that unset can ever be undone. -/
theorem c4_amended_real_unset_blocks_undo (s : Service) (name : String) (v : Int)
    (h : getEntry s.store.entries name = some v) :
    (Service.unset s name).back = Command.UnsetCommand name v true :: s.back ∧
    Service.undo (Service.unset s name) = (Service.unset s name, "None") := by
  have hu : unsetEntry s.store name
      = (⟨delEntry s.store.entries name, updateValueCount s.store.counts v (-1)⟩, v, true) := by
    unfold unsetEntry
    rw [h]
  constructor
  · simp [Service.unset, Service.appendNode, hu]
  · simp [Service.unset, Service.appendNode, hu, Service.undo]

/-- Witness for the amended claim C4 at a concrete input: after
`set("a",3)` the name `"a"` holds 3, so unsetting it records
`UnsetCommand("a", 3, true)` and the following undo returns "None" and
changes nothing. -/
theorem c4_amended_witness :
    (Service.unset (Service.set Service.init "a" 3) "a").back
        = Command.UnsetCommand "a" 3 true :: (Service.set Service.init "a" 3).back ∧
    Service.undo (Service.unset (Service.set Service.init "a" 3) "a")
        = (Service.unset (Service.set Service.init "a" 3) "a", "None") :=
  c4_amended_real_unset_blocks_undo (Service.set Service.init "a" 3) "a" 3 (by decide)

/-- Claim C5, refuted at a concrete input for the universal clause
("for every state, redo() immediately after an undo() reproduces the
state exactly as it was before the undo"): run
`unset("a"); unset("a"); undo()` from the fresh service, reaching a state
where `"a"` holds 0 and `count(0) = 1` with the cursor on the first
recorded no-op unset node.  The next `undo()` genuinely applies (it
returns "a = 0" and steps the cursor back), but `redo()` right after it
removes the entry of `"a"` and drops `count(0)` to 0 instead of
reproducing the pre-undo state. -/
theorem c5_counterexample :
    (Service.undo c5State).2 = "a = 0" ∧
    Service.getEntryOpt c5State "a" = some 0 ∧
    Service.getValueCount c5State 0 = 1 ∧
    Service.getEntryOpt c5After "a" = none ∧
    Service.getValueCount c5After 0 = 0 :=
  ⟨by decide, by decide, by decide, by decide, by decide⟩

/-- Claim C5 as amended: the round trip does hold for the instance the
claim spells out.  From any service state, `set(name, value); undo();
redo()` leaves the Entry table and the ValueCount table pointwise
identical to their state immediately after the `set`. -/
theorem c5_amended_set_undo_redo (s : Service) (name : String) (value : Int) :
    (∀ n, Service.getEntryOpt (Service.redo (Service.undo (Service.set s name value)).1).1 n
        = Service.getEntryOpt (Service.set s name value) n) ∧
    (∀ w, Service.getValueCount (Service.redo (Service.undo (Service.set s name value)).1).1 w
        = Service.getValueCount (Service.set s name value) w) :=
  set_undo_redo_tables s.store name value

/-- Claim C6: setting a name to the value it already holds performs no
write at all (the store, Entry table and ValueCount table included, is
returned unchanged by the read-only fast path of `_set_entry`), yet a
`SetCommand` node is still appended to the history. -/
theorem c6_noop_set_recorded (s : Service) (name : String) (v : Int)
    (h : getEntry s.store.entries name = some v) :
    (Service.set s name v).store = s.store ∧
    (Service.set s name v).back = Command.SetCommand name v :: s.back ∧
    (Service.set s name v).fwd = [] := by
  have hs : setEntry s.store name v = s.store := by
    unfold setEntry
    rw [h]
    simp
  exact ⟨hs, rfl, rfl⟩

/-- Witness for claim C6 at a concrete input: `"a"` holds 7, so setting
it to 7 again changes no table but appends a history node. -/
theorem c6_witness :
    (Service.set (Service.set Service.init "a" 7) "a" 7).store
        = (Service.set Service.init "a" 7).store ∧
    (Service.set (Service.set Service.init "a" 7) "a" 7).back
        = Command.SetCommand "a" 7 :: (Service.set Service.init "a" 7).back ∧
    (Service.set (Service.set Service.init "a" 7) "a" 7).fwd = [] :=
  c6_noop_set_recorded (Service.set Service.init "a" 7) "a" 7 (by decide)

/-- Claim C7: a `set` or `unset` issued in any state (in particular after
undos) appends a node with no successor, discarding the previous redo
chain, so the node is the tail of history and an immediately following
`redo()` returns the "NO COMMANDS" sentinel and changes nothing (and
therefore keeps doing so until an undo rebuilds a forward chain). -/
theorem c7_mutation_discards_redo (s : Service) (name : String) (value : Int) :
    (Service.set s name value).fwd = [] ∧
    Service.redo (Service.set s name value) = (Service.set s name value, "NO COMMANDS") ∧
    (Service.unset s name).fwd = [] ∧
    Service.redo (Service.unset s name) = (Service.unset s name, "NO COMMANDS") :=
  ⟨rfl, rfl, rfl, rfl⟩

/-- Claim C8: with the cursor on the sentinel root (no prior mutation),
`undo()` returns the "NO COMMANDS" sentinel and performs no backend
write — the whole service state is returned unchanged. -/
theorem c8_undo_empty_history (s : Service) (h : s.back = []) :
    Service.undo s = (s, "NO COMMANDS") := by
  unfold Service.undo
  rw [h]

/-- Witness for claim C8 at a concrete input: the fresh service. -/
theorem c8_witness : Service.undo Service.init = (Service.init, "NO COMMANDS") :=
  c8_undo_empty_history Service.init rfl

/-- Claim C9: the reset operation (the router's `/end` handler, which
calls `Service.end` and then rebuilds the service) deletes every Entry
and ValueCount row from the backend and leaves the history at its
sentinel state — it is not itself recorded, since the resulting history
is empty. -/
theorem c9_reset (s : Service) :
    (Service.endAll s).store.entries = [] ∧
    (∀ v, (Service.endAll s).store.counts v = 0) ∧
    routerEnd s = Service.init :=
  ⟨rfl, fun _ => rfl, rfl⟩

/-- Claim C10, refuted at a concrete input: with `count(5) = 0`,
decrementing the ValueCount row for 5 does not fail — `_update_value_count`
is total and silently stores the negative count -1. -/
theorem c10_counterexample :
    updateValueCount (fun _ => 0) 5 (-1) 5 = -1 := by decide

/-- Claim C10 as amended: when a decrement would take a count below
zero, `_update_value_count` raises no error and silently stores the
negative count. -/
theorem c10_amended_negative_stored (c : Int → Int) (v : Int)
    (h : c v + (-1) < 0) :
    updateValueCount c v (-1) v = c v + (-1) ∧ updateValueCount c v (-1) v < 0 := by
  have he : updateValueCount c v (-1) v = c v + (-1) := by
    simp [updateValueCount]
  exact ⟨he, by rw [he]; exact h⟩

/-- Witness for the amended claim C10 at a concrete input: a zero count
decremented once is stored as a negative count. -/
theorem c10_witness :
    updateValueCount (fun _ => 0) 7 (-1) 7 = 0 + (-1) ∧
    updateValueCount (fun _ => 0) 7 (-1) 7 < 0 :=
  c10_amended_negative_stored (fun _ => 0) 7 (by decide)
